import Mathlib

/-!
Shallow embedding of the `OutputChecker` reproducibility harness from
`src/ml/reproducibility.py`.

Modelling conventions:

* Python values handled by the harness are modelled by the inductive `PyVal`:
  1-D `np.ndarray` and `torch.Tensor` leaves are references into an explicit
  `Heap` of numeric buffers (so that in-place mutation and object identity are
  expressible), Python `list`/`tuple`/`dict` are containers, and plain Python
  `float`/`int` scalars are immediate values.  Numeric entries are rationals;
  every numeric result proved about below is exact (zeros and absolute
  differences), so no floating-point rounding is involved.
* Python exceptions are modelled with `Except String`; a returned
  `Except.error` marks the exact program point where the Python code raises.
* Calls to `logger.warn`/`logger.info` are diagnostics only and are not
  modelled; the printed verification row (name, mean, max, sum) is modelled
  as the `printed` component of `checkCall`'s result.
* `seed_everything` and `pickle` are external collaborators: seeding has no
  observable effect on the modelled state, and (de)serialization is modelled
  by what is written (the store value) resp. an injected load result.
-/

/-- Heap of 1-D numeric buffers; `np.ndarray` / `torch.Tensor` objects are
references (indices) into it, so in-place mutation is observable. -/
abbrev Heap := List (List ℚ)

/-- Buffer behind reference `r`. -/
def Heap.get (h : Heap) (r : ℕ) : List ℚ :=
  h.getD r []

/-- Python runtime values the checker can see (the duck-typed branches of
`diff` and `_update_tensors`): array-like leaves as heap references,
sequences, mappings, and plain scalars. -/
inductive PyVal where
  | array (r : ℕ)
  | tensor (r : ℕ)
  | vlist (xs : List PyVal)
  | vtuple (xs : List PyVal)
  | vdict (xs : List (String × PyVal))
  | float (q : ℚ)
  | int (z : ℤ)

/-- Python `type(x)` of a modelled value. -/
inductive PyType where
  | ndarray
  | Tensor
  | list
  | tuple
  | dict
  | float
  | int
deriving DecidableEq

/-- The `type(out1) is not type(out2)` comparison used by `diff` and
`_update_tensors`. -/
def PyVal.ty : PyVal → PyType
  | .array _ => .ndarray
  | .tensor _ => .Tensor
  | .vlist _ => .list
  | .vtuple _ => .tuple
  | .vdict _ => .dict
  | .float _ => .float
  | .int _ => .int

/-- Python `dict` access `xs[k]`: first (unique) binding of key `k`. -/
def dlookup (k : String) : List (String × PyVal) → Option PyVal
  | [] => none
  | (k', v) :: rest => if k' = k then some v else dlookup k rest

/-- Python `out1.keys() == out2.keys()`: dict key views compare as sets. -/
def keySetEq (xs ys : List (String × PyVal)) : Bool :=
  xs.all (fun p => ys.any (fun q => q.1 = p.1)) &&
    ys.all (fun p => xs.any (fun q => q.1 = p.1))

/-- Elementwise absolute difference `np.abs(out1 - out2)` of two 1-D buffers
with numpy broadcasting: equal lengths subtract elementwise, a length-1
operand stretches, and any other shape combination raises `ValueError`. -/
def broadcastAbsDiff (a b : List ℚ) : Except String (List ℚ) :=
  if a.length = b.length then
    .ok (List.zipWith (fun x y => |x - y|) a b)
  else if a.length = 1 then
    .ok (b.map (fun y => |a.headD 0 - y|))
  else if b.length = 1 then
    .ok (a.map (fun x => |x - b.headD 0|))
  else
    .error "ValueError: operands could not be broadcast together"

/-- The triple `np.mean(diffs), np.max(diffs), np.sum(diffs)` over a 1-D
buffer; `np.max` raises `ValueError` on an empty buffer (the `np.mean` nan
warning on the empty buffer is not an exception and is not modelled). -/
def npStats : List ℚ → Except String (ℚ × ℚ × ℚ)
  | [] => .error "ValueError: zero-size array to reduction operation maximum"
  | x :: xs => .ok ((x :: xs).sum / (x :: xs).length, xs.foldl max x, (x :: xs).sum)

/-- Aggregation step `means, maxs, sums = zip(*[...]); np.mean(means),
np.max(maxs), np.sum(sums)` of `diff` on sequences and mappings: unpacking
`zip(*[])` of an empty list of per-child triples raises `ValueError`. -/
def aggregateDiffs : List (ℚ × ℚ × ℚ) → Except String (ℚ × ℚ × ℚ)
  | [] => .error "ValueError: not enough values to unpack (expected 3, got 0)"
  | t :: ts =>
    let means := (t :: ts).map (fun p => p.1)
    let maxs := (ts.map (fun p => p.2.1))
    let sums := (t :: ts).map (fun p => p.2.2)
    .ok (means.sum / means.length, maxs.foldl max t.2.1, sums.sum)

mutual
/-- Mirrors `OutputChecker.diff` (src/ml/reproducibility.py, lines 198-226):
type mismatch returns `(0,0,0)`; array-like leaves return mean/max/sum of the
elementwise absolute difference; same-length sequences and equal-key-set
mappings recurse and aggregate; any other type is unsupported and returns
`(0,0,0)`.  `Except.error` marks the points where the Python code raises. -/
def diff (h : Heap) : PyVal → PyVal → Except String (ℚ × ℚ × ℚ)
  | out1, out2 =>
    if out1.ty ≠ out2.ty then
      .ok (0, 0, 0)
    else
      match out1, out2 with
      | .array r1, .array r2 => do
        npStats (← broadcastAbsDiff (h.get r1) (h.get r2))
      | .tensor r1, .tensor r2 => do
        npStats (← broadcastAbsDiff (h.get r1) (h.get r2))
      | .vlist xs, .vlist ys =>
        if xs.length = ys.length then do
          aggregateDiffs (← diffZip h xs ys)
        else
          .ok (0, 0, 0)
      | .vtuple xs, .vtuple ys =>
        if xs.length = ys.length then do
          aggregateDiffs (← diffZip h xs ys)
        else
          .ok (0, 0, 0)
      | .vdict xs, .vdict ys =>
        if keySetEq xs ys then do
          aggregateDiffs (← diffDict h xs ys)
        else
          .ok (0, 0, 0)
      | _, _ => .ok (0, 0, 0)

/-- The list comprehension `[OutputChecker.diff(o1, o2) for o1, o2 in
zip(out1, out2)]`, collecting per-element triples (zip truncates, but `diff`
only calls this under equal lengths). -/
def diffZip (h : Heap) : List PyVal → List PyVal → Except String (List (ℚ × ℚ × ℚ))
  | [], _ => .ok []
  | _ :: _, [] => .ok []
  | x :: xs, y :: ys => do
    let t ← diff h x y
    let ts ← diffZip h xs ys
    .ok (t :: ts)

/-- The list comprehension `[OutputChecker.diff(out1[key], out2[key]) for key
in out1]`, iterating the first mapping's keys in insertion order. -/
def diffDict (h : Heap) : List (String × PyVal) → List (String × PyVal) →
    Except String (List (ℚ × ℚ × ℚ))
  | [], _ => .ok []
  | (k, v) :: xs, ys =>
    match dlookup k ys with
    | none => .error "KeyError"
    | some w => do
      let t ← diff h v w
      let ts ← diffDict h xs ys
      .ok (t :: ts)
end

/-- Models `out.data.copy_(out_prev)` on 1-D tensors: overwrite the live
tensor's buffer (reference `rLive`) in place with the recorded tensor's
values, broadcasting a length-1 source; a source that does not broadcast to
the destination shape raises `RuntimeError`. -/
def tensorCopyInto (h : Heap) (rPrev rLive : ℕ) : Except String Heap :=
  let src := h.get rPrev
  let dst := h.get rLive
  if src.length = dst.length then
    .ok (h.set rLive src)
  else if src.length = 1 then
    .ok (h.set rLive (dst.map (fun _ => src.headD 0)))
  else
    .error "RuntimeError: the expanded size of the tensor must match"

mutual
/-- Mirrors `OutputChecker._update_tensors` (src/ml/reproducibility.py,
lines 172-196): on a type mismatch return `out_prev`; a `torch.Tensor` leaf
copies the recorded values into the live tensor's buffer and returns the live
tensor; same-length sequences and equal-key-set mappings rebuild the
container recursively (a fresh container object); every other case —
including `np.ndarray` leaves and plain scalars, which have no dedicated
branch — returns `out_prev`, the recorded value, unchanged. -/
def updateTensors (h : Heap) : PyVal → PyVal → Except String (Heap × PyVal)
  | out_prev, out =>
    if out_prev.ty ≠ out.ty then
      .ok (h, out_prev)
    else
      match out_prev, out with
      | .tensor rPrev, .tensor rLive => do
        let h' ← tensorCopyInto h rPrev rLive
        .ok (h', .tensor rLive)
      | .vlist xs, .vlist ys =>
        if xs.length = ys.length then do
          let (h', vs) ← updateZip h xs ys
          .ok (h', .vlist vs)
        else
          .ok (h, out_prev)
      | .vtuple xs, .vtuple ys =>
        if xs.length = ys.length then do
          let (h', vs) ← updateZip h xs ys
          .ok (h', .vtuple vs)
        else
          .ok (h, out_prev)
      | .vdict xs, .vdict ys =>
        if keySetEq xs ys then do
          let (h', ps) ← updateDict h xs ys
          .ok (h', .vdict ps)
        else
          .ok (h, out_prev)
      | _, _ => .ok (h, out_prev)

/-- The elementwise `map(OutputChecker._update_tensors, out_prev, out)` over
two sequences, threading the heap left to right. -/
def updateZip (h : Heap) : List PyVal → List PyVal →
    Except String (Heap × List PyVal)
  | [], _ => .ok (h, [])
  | _ :: _, [] => .ok (h, [])
  | x :: xs, y :: ys => do
    let (h1, v) ← updateTensors h x y
    let (h2, vs) ← updateZip h1 xs ys
    .ok (h2, v :: vs)

/-- The dict comprehension rebuilding a mapping per key of `out_prev`,
threading the heap left to right. -/
def updateDict (h : Heap) : List (String × PyVal) → List (String × PyVal) →
    Except String (Heap × List (String × PyVal))
  | [], _ => .ok (h, [])
  | (k, v) :: xs, ys =>
    match dlookup k ys with
    | none => .error "KeyError"
    | some w => do
      let (h1, v') ← updateTensors h v w
      let (h2, ps) ← updateDict h1 xs ys
      .ok (h2, (k, v') :: ps)
end

/-- The two active phases `OutputChecker.COLLECT` / `OutputChecker.VERIFY`;
the inactive phase is `none` in `CheckerState.phase`. -/
inductive Phase where
  | COLLECT
  | VERIFY
deriving DecidableEq

/-- Recorded Output Store: the `self.outputs` dict, insertion-ordered, keys
unique. -/
abbrev Store := List (String × PyVal)

/-- Mutable state of an `OutputChecker` instance (`__init__`, lines 84-87),
plus `names_max_len` set by `verify`. -/
structure CheckerState where
  phase : Option Phase
  scopes : List String
  outputs : Store
  names_max_len : ℕ

/-- Qualified name `".".join(self.scopes + [name])` (line 146). -/
def qualifiedName (scopes : List String) (name : String) : String :=
  String.intercalate "." (scopes ++ [name])

/-- Entering `scope(name)` (lines 129-135): push the segment. -/
def scopeEnter (σ : CheckerState) (name : String) : CheckerState :=
  { σ with scopes := σ.scopes ++ [name] }

/-- Mirrors the callable branch of `OutputChecker.__call__` (lines 141-167).
The thunk is modelled as a pure function of the checker state (it runs with
`name` pushed on the scope stack, which is popped again before the qualified
name is built).  The result carries the heap, the state, the returned value
and the list of printed verification rows `(qualified name, (mean, max,
sum))`; `Except.error` marks an escaping Python exception. -/
def checkCall (h : Heap) (σ : CheckerState) (name : String)
    (thunk : CheckerState → PyVal) (disable : Bool) :
    Except String (Heap × CheckerState × PyVal × List (String × (ℚ × ℚ × ℚ))) :=
  let out := thunk (scopeEnter σ name)
  if σ.phase.isSome && !disable then
    let qname := qualifiedName σ.scopes name
    match σ.phase with
    | some .COLLECT =>
      match dlookup qname σ.outputs with
      | none =>
        .ok (h, { σ with outputs := σ.outputs ++ [(qname, out)] }, out, [])
      | some _ =>
        .ok (h, σ, out, [])
    | some .VERIFY =>
      match dlookup qname σ.outputs with
      | some recorded => do
        let d ← diff h out recorded
        let hp ← updateTensors h recorded out
        .ok (hp.1, σ, hp.2, [(qname, d)])
      | none =>
        .ok (h, σ, out, [])
    | none => .ok (h, σ, out, [])
  else
    .ok (h, σ, out, [])

/-- The `max(len(name) for name in self.outputs)` of `verify` (line 120),
as evaluated on a nonempty store (the empty store raises before this value
is ever used, see `verifySession`). -/
def namesMaxLen (st : Store) : ℕ :=
  (st.map (fun p => p.1.length)).foldl max 0

/-- Mirrors the `collect` contextmanager (src/ml/reproducibility.py, lines
94-109).  The caller's body is a function from the yielded state to the state
it leaves behind plus the exception it raised, if any.  `serializeFails`
injects a failure of the `pickle.dump` call.  Result: final checker state,
the store written to `path` (if any), and the escaping exception (if any).
Note the source places both the phase reset and the serialization in the
`finally` block, so both run on every exit path. -/
def collectSession (σ : CheckerState) (path : Option String)
    (body : CheckerState → CheckerState × Option String)
    (serializeFails : Bool) :
    CheckerState × Option Store × Option String :=
  let σ1 := { σ with phase := some Phase.COLLECT }
  let bodyRes := body σ1
  let σ2 := { bodyRes.1 with phase := none }
  match path with
  | none => (σ2, none, bodyRes.2)
  | some _ =>
    if serializeFails then
      (σ2, none, some "SerializationError")
    else
      (σ2, some σ2.outputs, bodyRes.2)

/-- Tail of the `verify` contextmanager after the optional load (lines
119-127): computing `max(len(name) for name in self.outputs)` raises
`ValueError` on an empty store before the phase is ever set to `VERIFY`;
otherwise the phase is set, the body runs, and the `finally` block resets the
phase.  Result: final state, escaping exception, and whether the body ran. -/
def verifyFrom (σ : CheckerState)
    (body : CheckerState → CheckerState × Option String) :
    CheckerState × Option String × Bool :=
  if σ.outputs.isEmpty then
    ({ σ with phase := none }, some "ValueError: max() arg is an empty sequence", false)
  else
    let σ1 := { σ with names_max_len := namesMaxLen σ.outputs,
                       phase := some Phase.VERIFY }
    let bodyRes := body σ1
    ({ bodyRes.1 with phase := none }, bodyRes.2, true)

/-- Mirrors the `verify` contextmanager (src/ml/reproducibility.py, lines
111-127).  `load` is the outcome of `pickle.load` when a path was given
(`none` when no path was given); a failed load escapes, with the `finally`
block still resetting the phase. -/
def verifySession (σ : CheckerState) (load : Option (Except String Store))
    (body : CheckerState → CheckerState × Option String) :
    CheckerState × Option String × Bool :=
  match load with
  | some (.error e) => ({ σ with phase := none }, some e, false)
  | some (.ok st) => verifyFrom { σ with outputs := st } body
  | none => verifyFrom σ body

/-- State of a freshly constructed `OutputChecker` (lines 84-87). -/
def initState : CheckerState :=
  { phase := none, scopes := [], outputs := [], names_max_len := 0 }

/-- Leaf values with none of the duck-typed branches of `diff` /
`_update_tensors`: plain Python scalars. -/
def scalarLeaf : PyVal → Bool
  | .float _ => true
  | .int _ => true
  | _ => false

/-- Uniqueness of the keys of one mapping node (Python dicts always satisfy
this; the assoc-list model has to state it). -/
def keysNodup : List (String × PyVal) → Bool
  | [] => true
  | (k, _) :: xs => !(xs.any (fun q => q.1 = k)) && keysNodup xs

mutual
/-- Every mapping node of the value tree has pairwise distinct keys (true of
any value tree an actual Python run can produce). -/
def keysNodupTree : PyVal → Bool
  | .array _ => true
  | .tensor _ => true
  | .vlist xs => keysNodupForest xs
  | .vtuple xs => keysNodupForest xs
  | .vdict xs => keysNodup xs && keysNodupDict xs
  | .float _ => true
  | .int _ => true

def keysNodupForest : List PyVal → Bool
  | [] => true
  | x :: xs => keysNodupTree x && keysNodupForest xs

def keysNodupDict : List (String × PyVal) → Bool
  | [] => true
  | (_, v) :: xs => keysNodupTree v && keysNodupDict xs
end

mutual
/-- No empty array buffer, no empty sequence and no empty mapping anywhere in
the value tree (on such nodes `diff` raises instead of returning a triple,
see the `C2` theorems). -/
def nonEmptyTree (h : Heap) : PyVal → Bool
  | .array r => !(h.get r).isEmpty
  | .tensor r => !(h.get r).isEmpty
  | .vlist xs => !xs.isEmpty && nonEmptyForest h xs
  | .vtuple xs => !xs.isEmpty && nonEmptyForest h xs
  | .vdict xs => !xs.isEmpty && nonEmptyDict h xs
  | .float _ => true
  | .int _ => true

def nonEmptyForest (h : Heap) : List PyVal → Bool
  | [] => true
  | x :: xs => nonEmptyTree h x && nonEmptyForest h xs

def nonEmptyDict (h : Heap) : List (String × PyVal) → Bool
  | [] => true
  | (_, v) :: xs => nonEmptyTree h v && nonEmptyDict h xs
end

/-- Store of the spec's concrete scenario: one scalar recorded under
`"loss"` with value `0.42 = 21/50`. -/
def lossStore : Store :=
  [("loss", .float (21/50))]

/-- Checker state inside `verify()` with `lossStore` loaded. -/
def lossVerifyState : CheckerState :=
  { phase := some Phase.VERIFY, scopes := [], outputs := lossStore,
    names_max_len := 4 }

/-- Session body that records one output and then raises. -/
def rbody : CheckerState → CheckerState × Option String :=
  fun σ => ({ σ with outputs := σ.outputs ++ [("x", .float 1)] },
            some "RuntimeError: boom")

/-- Session body that does nothing and returns normally. -/
def nbody : CheckerState → CheckerState × Option String :=
  fun σ => (σ, none)

/-- Heap for the round-trip example: two buffers. -/
def rtHeap : Heap :=
  [[2, 3], [4]]

/-- Value tree for the round-trip example: a mapping holding a sequence of a
scalar and an `ndarray`, and a `torch.Tensor`. -/
def rtValue : PyVal :=
  .vdict [("w", .vlist [.float 1, .array 0]), ("b", .tensor 1)]

/-- Collecting-phase state for the round-trip example. -/
def rtCollectState : CheckerState :=
  { phase := some Phase.COLLECT, scopes := [], outputs := [],
    names_max_len := 0 }

/-- Verifying-phase state for the round-trip example, holding the store the
collection produced. -/
def rtVerifyState : CheckerState :=
  { phase := some Phase.VERIFY, scopes := [], outputs := [("step", rtValue)],
    names_max_len := 4 }

/-- Collecting-phase state that already holds a value under `"n"`. -/
def c8State : CheckerState :=
  { phase := some Phase.COLLECT, scopes := [], outputs := [("n", .float 2)],
    names_max_len := 0 }

/-- Verifying-phase state holding a plain-scalar leaf under `"v"`. -/
def c10State : CheckerState :=
  { phase := some Phase.VERIFY, scopes := [], outputs := [("v", .int 7)],
    names_max_len := 1 }

theorem dlookup_append_self (k : String) (w : PyVal) :
    ∀ l : Store, dlookup k l = none → dlookup k (l ++ [(k, w)]) = some w := by
  intro l
  induction l with
  | nil => intro _; simp [dlookup]
  | cons p rest ih =>
    obtain ⟨k', v⟩ := p
    intro hnone
    by_cases hk : k' = k
    · simp [dlookup, hk] at hnone
    · simp only [List.cons_append, dlookup, if_neg hk] at hnone ⊢
      exact ih hnone

theorem dlookup_self (k : String) (v : PyVal) :
    ∀ xs : List (String × PyVal), keysNodup xs = true → (k, v) ∈ xs →
      dlookup k xs = some v := by
  intro xs
  induction xs with
  | nil => simp
  | cons p rest ih =>
    obtain ⟨k', w⟩ := p
    intro hnd hmem
    simp only [keysNodup, Bool.and_eq_true, Bool.not_eq_true'] at hnd
    rcases List.mem_cons.mp hmem with heq | hmem'
    · cases heq
      simp [dlookup]
    · have hk : k' ≠ k := by
        intro hcon
        subst hcon
        have hany : (rest.any fun q => q.1 = k') = true :=
          List.any_eq_true.mpr ⟨(k', v), hmem', by simp⟩
        rw [hany] at hnd
        exact absurd hnd.1 (by simp)
      simp only [dlookup, if_neg hk]
      exact ih hnd.2 hmem'

theorem zipWith_absSub_self (l : List ℚ) :
    List.zipWith (fun x y => |x - y|) l l = List.replicate l.length 0 := by
  induction l with
  | nil => rfl
  | cons x xs ih => simp [List.replicate_succ, ih]

theorem foldl_max_replicate_zero (n : ℕ) :
    (List.replicate n (0 : ℚ)).foldl max 0 = 0 := by
  induction n with
  | zero => rfl
  | succ n ih => simpa [List.replicate_succ] using ih

theorem bind_ok_eq {α β : Type} (a : α) (f : α → Except String β) :
    (Except.ok a : Except String α) >>= f = f a := rfl

theorem npStats_replicate_zero (n : ℕ) :
    npStats (0 :: List.replicate n (0 : ℚ)) = .ok (0, 0, 0) := by
  simp [npStats, foldl_max_replicate_zero, List.sum_replicate]

theorem aggregateDiffs_replicate_zero (n : ℕ) :
    aggregateDiffs ((0 : ℚ × ℚ × ℚ) :: List.replicate n (0 : ℚ × ℚ × ℚ))
      = .ok (0, 0, 0) := by
  have hz : (0 : ℚ × ℚ × ℚ) = ((0 : ℚ), (0 : ℚ), (0 : ℚ)) := rfl
  rw [hz]
  simp [aggregateDiffs, foldl_max_replicate_zero, List.map_replicate,
    List.sum_replicate]

theorem keySetEq_refl (xs : List (String × PyVal)) : keySetEq xs xs = true := by
  simp only [keySetEq, Bool.and_eq_true, List.all_eq_true, List.any_eq_true,
    decide_eq_true_eq]
  exact ⟨fun p hp => ⟨p, hp, rfl⟩, fun p hp => ⟨p, hp, rfl⟩⟩

theorem nonEmptyForest_mem (h : Heap) :
    ∀ xs, nonEmptyForest h xs = true → ∀ x ∈ xs, nonEmptyTree h x = true := by
  intro xs
  induction xs with
  | nil => simp
  | cons y ys ih =>
    intro hall x hx
    simp only [nonEmptyForest, Bool.and_eq_true] at hall
    rcases List.mem_cons.mp hx with heq | hmem
    · subst heq; exact hall.1
    · exact ih hall.2 x hmem

theorem nonEmptyDict_mem (h : Heap) :
    ∀ xs, nonEmptyDict h xs = true → ∀ k v, (k, v) ∈ xs →
      nonEmptyTree h v = true := by
  intro xs
  induction xs with
  | nil => simp
  | cons p ps ih =>
    obtain ⟨k', w⟩ := p
    intro hall k v hkv
    simp only [nonEmptyDict, Bool.and_eq_true] at hall
    rcases List.mem_cons.mp hkv with heq | hmem
    · have hv : v = w := congrArg Prod.snd heq
      subst hv; exact hall.1
    · exact ih hall.2 k v hmem

theorem keysNodupForest_mem :
    ∀ xs, keysNodupForest xs = true → ∀ x ∈ xs, keysNodupTree x = true := by
  intro xs
  induction xs with
  | nil => simp
  | cons y ys ih =>
    intro hall x hx
    simp only [keysNodupForest, Bool.and_eq_true] at hall
    rcases List.mem_cons.mp hx with heq | hmem
    · subst heq; exact hall.1
    · exact ih hall.2 x hmem

theorem keysNodupDict_mem :
    ∀ xs, keysNodupDict xs = true → ∀ k v, (k, v) ∈ xs →
      keysNodupTree v = true := by
  intro xs
  induction xs with
  | nil => simp
  | cons p ps ih =>
    obtain ⟨k', w⟩ := p
    intro hall k v hkv
    simp only [keysNodupDict, Bool.and_eq_true] at hall
    rcases List.mem_cons.mp hkv with heq | hmem
    · have hv : v = w := congrArg Prod.snd heq
      subst hv; exact hall.1
    · exact ih hall.2 k v hmem

mutual
theorem diff_self_ok (h : Heap) (v : PyVal)
    (hne : nonEmptyTree h v = true) (hnd : keysNodupTree v = true) :
    diff h v v = .ok (0, 0, 0) := by
  cases v with
  | array r =>
    have hbuf : h.get r ≠ [] := by
      simp only [nonEmptyTree, Bool.not_eq_true'] at hne
      exact fun hcon => by simp [hcon] at hne
    obtain ⟨x, xs, hx⟩ := List.exists_cons_of_ne_nil hbuf
    simp [diff, PyVal.ty, broadcastAbsDiff, hx, zipWith_absSub_self,
      List.replicate_succ, bind_ok_eq, npStats_replicate_zero]
  | tensor r =>
    have hbuf : h.get r ≠ [] := by
      simp only [nonEmptyTree, Bool.not_eq_true'] at hne
      exact fun hcon => by simp [hcon] at hne
    obtain ⟨x, xs, hx⟩ := List.exists_cons_of_ne_nil hbuf
    simp [diff, PyVal.ty, broadcastAbsDiff, hx, zipWith_absSub_self,
      List.replicate_succ, bind_ok_eq, npStats_replicate_zero]
  | float q => simp [diff, PyVal.ty]
  | int z => simp [diff, PyVal.ty]
  | vlist xs =>
    cases xs with
    | nil => simp [nonEmptyTree] at hne
    | cons y ys =>
      have hf : nonEmptyForest h (y :: ys) = true := by
        simpa [nonEmptyTree] using hne
      have hndf : keysNodupForest (y :: ys) = true := by
        simpa [keysNodupTree] using hnd
      have hz := diffZip_self_ok h (y :: ys) hf hndf
      simp [diff, PyVal.ty, hz, List.replicate_succ, bind_ok_eq,
        aggregateDiffs_replicate_zero]
  | vtuple xs =>
    cases xs with
    | nil => simp [nonEmptyTree] at hne
    | cons y ys =>
      have hf : nonEmptyForest h (y :: ys) = true := by
        simpa [nonEmptyTree] using hne
      have hndf : keysNodupForest (y :: ys) = true := by
        simpa [keysNodupTree] using hnd
      have hz := diffZip_self_ok h (y :: ys) hf hndf
      simp [diff, PyVal.ty, hz, List.replicate_succ, bind_ok_eq,
        aggregateDiffs_replicate_zero]
  | vdict xs =>
    cases xs with
    | nil => simp [nonEmptyTree] at hne
    | cons p ps =>
      have hd : nonEmptyDict h (p :: ps) = true := by
        simpa [nonEmptyTree] using hne
      have hnd' : keysNodup (p :: ps) = true ∧ keysNodupDict (p :: ps) = true := by
        simpa [keysNodupTree, Bool.and_eq_true] using hnd
      have hinv : ∀ k v, (k, v) ∈ (p :: ps) →
          dlookup k (p :: ps) = some v ∧ nonEmptyTree h v = true ∧
            keysNodupTree v = true := by
        intro k v hkv
        exact ⟨dlookup_self k v _ hnd'.1 hkv, nonEmptyDict_mem h _ hd k v hkv,
          keysNodupDict_mem _ hnd'.2 k v hkv⟩
      have hD := diffDict_self_ok h (p :: ps) (p :: ps) hinv
      simp [diff, PyVal.ty, keySetEq_refl, hD, List.replicate_succ, bind_ok_eq,
        aggregateDiffs_replicate_zero]

theorem diffZip_self_ok (h : Heap) (xs : List PyVal)
    (hne : nonEmptyForest h xs = true) (hnd : keysNodupForest xs = true) :
    diffZip h xs xs = .ok (List.replicate xs.length (0, 0, 0)) := by
  cases xs with
  | nil => simp [diffZip]
  | cons y ys =>
    have h1 : nonEmptyTree h y = true ∧ nonEmptyForest h ys = true := by
      simpa [nonEmptyForest, Bool.and_eq_true] using hne
    have h2 : keysNodupTree y = true ∧ keysNodupForest ys = true := by
      simpa [keysNodupForest, Bool.and_eq_true] using hnd
    have hy := diff_self_ok h y h1.1 h2.1
    have hys := diffZip_self_ok h ys h1.2 h2.2
    simp [diffZip, hy, hys, List.replicate_succ, bind_ok_eq]

theorem diffDict_self_ok (h : Heap) (xs ys : List (String × PyVal))
    (hinv : ∀ k v, (k, v) ∈ xs → dlookup k ys = some v ∧
      nonEmptyTree h v = true ∧ keysNodupTree v = true) :
    diffDict h xs ys = .ok (List.replicate xs.length (0, 0, 0)) := by
  cases xs with
  | nil => simp [diffDict]
  | cons p ps =>
    obtain ⟨k, v⟩ := p
    have hp := hinv k v (List.mem_cons_self _ _)
    have hv := diff_self_ok h v hp.2.1 hp.2.2
    have hps := diffDict_self_ok h ps ys
      (fun k' v' hk => hinv k' v' (List.mem_cons_of_mem _ hk))
    simp [diffDict, hp.1, hv, hps, List.replicate_succ, bind_ok_eq]
end

mutual
theorem updateTensors_self_ok (h : Heap) (v : PyVal)
    (hnd : keysNodupTree v = true) :
    ∃ p, updateTensors h v v = .ok p := by
  cases v with
  | array r => exact ⟨(h, .array r), by simp [updateTensors, PyVal.ty]⟩
  | tensor r =>
    exact ⟨(h.set r (h.get r), .tensor r),
      by simp [updateTensors, PyVal.ty, tensorCopyInto, bind_ok_eq]⟩
  | float q => exact ⟨(h, .float q), by simp [updateTensors, PyVal.ty]⟩
  | int z => exact ⟨(h, .int z), by simp [updateTensors, PyVal.ty]⟩
  | vlist xs =>
    have hndf : keysNodupForest xs = true := by simpa [keysNodupTree] using hnd
    obtain ⟨⟨h', vs⟩, hq⟩ := updateZip_self_ok h xs hndf
    exact ⟨(h', .vlist vs), by simp [updateTensors, PyVal.ty, hq, bind_ok_eq]⟩
  | vtuple xs =>
    have hndf : keysNodupForest xs = true := by simpa [keysNodupTree] using hnd
    obtain ⟨⟨h', vs⟩, hq⟩ := updateZip_self_ok h xs hndf
    exact ⟨(h', .vtuple vs), by simp [updateTensors, PyVal.ty, hq, bind_ok_eq]⟩
  | vdict xs =>
    have hnd' : keysNodup xs = true ∧ keysNodupDict xs = true := by
      simpa [keysNodupTree, Bool.and_eq_true] using hnd
    have hinv : ∀ k v, (k, v) ∈ xs →
        dlookup k xs = some v ∧ keysNodupTree v = true := by
      intro k v hkv
      exact ⟨dlookup_self k v _ hnd'.1 hkv, keysNodupDict_mem _ hnd'.2 k v hkv⟩
    obtain ⟨⟨h', ps⟩, hq⟩ := updateDict_self_ok h xs xs hinv
    exact ⟨(h', .vdict ps),
      by simp [updateTensors, PyVal.ty, keySetEq_refl, hq, bind_ok_eq]⟩

theorem updateZip_self_ok (h : Heap) (xs : List PyVal)
    (hnd : keysNodupForest xs = true) :
    ∃ p, updateZip h xs xs = .ok p := by
  cases xs with
  | nil => exact ⟨(h, []), by simp [updateZip]⟩
  | cons y ys =>
    have h2 : keysNodupTree y = true ∧ keysNodupForest ys = true := by
      simpa [keysNodupForest, Bool.and_eq_true] using hnd
    obtain ⟨⟨h1, v1⟩, hy⟩ := updateTensors_self_ok h y h2.1
    obtain ⟨⟨h3, vs⟩, hys⟩ := updateZip_self_ok h1 ys h2.2
    exact ⟨(h3, v1 :: vs), by simp [updateZip, hy, hys, bind_ok_eq]⟩

theorem updateDict_self_ok (h : Heap) (xs ys : List (String × PyVal))
    (hinv : ∀ k v, (k, v) ∈ xs →
      dlookup k ys = some v ∧ keysNodupTree v = true) :
    ∃ p, updateDict h xs ys = .ok p := by
  cases xs with
  | nil => exact ⟨(h, []), by simp [updateDict]⟩
  | cons p ps =>
    obtain ⟨k, v⟩ := p
    have hp := hinv k v (List.mem_cons_self _ _)
    obtain ⟨⟨h1, v1⟩, hv⟩ := updateTensors_self_ok h v hp.2
    obtain ⟨⟨h3, qs⟩, hps⟩ := updateDict_self_ok h1 ps ys
      (fun k' v' hk => hinv k' v' (List.mem_cons_of_mem _ hk))
    exact ⟨(h3, (k, v1) :: qs), by simp [updateDict, hp.1, hv, hps, bind_ok_eq]⟩
end

/-- C1 counterexample: in a Verifying session whose store maps `"loss"` to the
plain scalar `0.42`, checking a thunk returning `0.43` prints the diff row
`(0, 0, 0)` — not `(0.01, 0.01, 0.01)` as claimed — because a plain float hits
the unsupported-type branch of `diff`; the call does return the recorded
`0.42`. -/
theorem C1_scalar_diff_is_zero_not_abs :
    (checkCall [] lossVerifyState "loss" (fun _ => .float (43/100)) false
        = .ok ([], lossVerifyState, .float (21/50), [("loss", (0, 0, 0))])) ∧
    ((0 : ℚ), (0 : ℚ), (0 : ℚ)) ≠ ((1/100 : ℚ), (1/100 : ℚ), (1/100 : ℚ)) := by
  constructor
  · rfl
  · intro hcon
    have h0 := congrArg Prod.fst hcon
    norm_num at h0

/-- C1 (amended): in a Verifying session whose store maps `"loss"` to the
scalar `0.42`, checking a thunk returning `0.43` prints the diff row
`(0, 0, 0)` for `"loss"` (plain scalars are an unsupported leaf type for
`diff`, which logs a diagnostic and reports zeros) and returns the recorded
`0.42`, not `0.43`; the heap and the checker state are untouched. -/
theorem C1_scalar_verify_prints_zero_returns_recorded :
    checkCall [] lossVerifyState "loss" (fun _ => .float (43/100)) false
      = .ok ([], lossVerifyState, .float (21/50), [("loss", (0, 0, 0))]) := rfl

/-- C2: `diff` is not total — it raises `ValueError` on two equal empty
sequences, on two equal empty mappings, on same-type 1-D arrays whose lengths
do not broadcast, and on two empty arrays — contradicting the stated design
that it never raises and returns `(0, 0, 0)` with a diagnostic on every
mismatch. -/
theorem C2_diff_raises_on_empty_and_unbroadcastable :
    (diff [] (.vlist []) (.vlist [])
        = .error "ValueError: not enough values to unpack (expected 3, got 0)") ∧
    (diff [] (.vdict []) (.vdict [])
        = .error "ValueError: not enough values to unpack (expected 3, got 0)") ∧
    (diff [[1, 2], [1, 2, 3]] (.array 0) (.array 1)
        = .error "ValueError: operands could not be broadcast together") ∧
    (diff [[], []] (.array 0) (.array 1)
        = .error "ValueError: zero-size array to reduction operation maximum") :=
  ⟨rfl, rfl, rfl, rfl⟩

/-- C3 counterexample: for `np.ndarray` leaves (an array-like numeric buffer)
reconciliation does NOT overwrite the live buffer and does NOT return the
live object: `_update_tensors` has no `ndarray` branch, so the recorded
object (`array 0`) is returned, the live leaf (`array 1`) is discarded, and
the heap — in particular the live buffer — is unchanged. -/
theorem C3_ndarray_reconcile_returns_recorded :
    (updateTensors [[5], [7]] (.array 0) (.array 1)
        = .ok ([[5], [7]], .array 0)) ∧
    PyVal.array 0 ≠ PyVal.array 1 := by
  refine ⟨rfl, ?_⟩
  intro hcon
  injection hcon with h01
  exact absurd h01 (by decide)

/-- C3 (amended): only `torch.Tensor` leaves are reconciled in place — for a
recorded and a live tensor whose buffers have equal length, the live buffer is
overwritten with the recorded values, every other buffer is untouched, and
the live tensor object itself is returned; an `np.ndarray` leaf instead
returns the recorded object with the heap unchanged. -/
theorem C3_tensor_reconciled_in_place (h : Heap) (rPrev rLive r1 r2 : ℕ)
    (hlen : (h.get rPrev).length = (h.get rLive).length) :
    (updateTensors h (.tensor rPrev) (.tensor rLive)
        = .ok (h.set rLive (h.get rPrev), .tensor rLive)) ∧
    updateTensors h (.array r1) (.array r2) = .ok (h, .array r1) := by
  constructor
  · simp [updateTensors, PyVal.ty, tensorCopyInto, hlen, bind_ok_eq]
  · simp [updateTensors, PyVal.ty]

theorem C3_tensor_reconciled_in_place_witness :
    (updateTensors [[5], [7]] (.tensor 0) (.tensor 1)
        = .ok ([[5], [5]], .tensor 1)) ∧
    updateTensors [[5], [7]] (.array 0) (.array 1)
        = .ok ([[5], [7]], .array 0) := by
  have hmain := C3_tensor_reconciled_in_place [[5], [7]] 0 1 0 1 rfl
  exact hmain

/-- C4 counterexample: with a persistence path, a body that records `"x"` and
then raises still gets the store serialized to the path (the `pickle.dump`
sits in the `finally` block), refuting "the store is NOT serialized when the
body raises": the session both propagates the body's exception and writes the
store. -/
theorem C4_serializes_despite_body_error :
    ((collectSession initState (some "out.pkl") rbody false).2.2
        = some "RuntimeError: boom") ∧
    (collectSession initState (some "out.pkl") rbody false).2.1
        = some [("x", PyVal.float 1)] :=
  ⟨rfl, rfl⟩

/-- C4 (amended): when `collect(persist_path)` is given a path and
serialization itself does not fail, the store left behind by the body is
serialized to the path on *every* exit — including when the body raises —
because the dump is in the `finally` block; the phase reset to Inactive also
happens on every such exit path (before serialization). -/
theorem C4_collect_always_serializes (σ : CheckerState) (p : String)
    (body : CheckerState → CheckerState × Option String) :
    ((collectSession σ (some p) body false).2.1
        = some ((body { σ with phase := some Phase.COLLECT }).1.outputs)) ∧
    (collectSession σ (some p) body false).1.phase = none :=
  ⟨rfl, rfl⟩

/-- C5 counterexample: verifying the exact value that was recorded does not
always yield `(0, 0, 0)` — for a recorded empty list, `diff` raises while
unpacking the empty `zip`, so the round-trip property fails on value trees
with empty containers. -/
theorem C5_roundtrip_fails_on_empty_list :
    checkCall []
        { phase := some Phase.VERIFY, scopes := [],
          outputs := [("e", .vlist [])], names_max_len := 1 }
        "e" (fun _ => .vlist []) false
      = .error "ValueError: not enough values to unpack (expected 3, got 0)" := rfl

/-- C5 (amended): for every pure computation whose value tree has no empty
array buffer, no empty sequence and no empty mapping (and Python-respecting
unique mapping keys), collecting it under a name and then verifying it
against the store the collection produced succeeds and prints the diff
`(0, 0, 0)` for the recorded name, without raising. -/
theorem C5_collect_verify_roundtrip (h : Heap) (name : String) (v : PyVal)
    (σc : CheckerState)
    (hph : σc.phase = some Phase.COLLECT) (hsc : σc.scopes = [])
    (habs : dlookup (qualifiedName [] name) σc.outputs = none)
    (hne : nonEmptyTree h v = true) (hnd : keysNodupTree v = true) :
    (checkCall h σc name (fun _ => v) false
      = .ok (h, { σc with outputs := σc.outputs ++ [(qualifiedName [] name, v)] },
             v, [])) ∧
    ∀ σv : CheckerState, σv.phase = some Phase.VERIFY → σv.scopes = [] →
      σv.outputs = σc.outputs ++ [(qualifiedName [] name, v)] →
      ∃ h' σ' out, checkCall h σv name (fun _ => v) false
          = .ok (h', σ', out, [(qualifiedName [] name, (0, 0, 0))]) := by
  constructor
  · simp [checkCall, hph, hsc, habs]
  · intro σv hvph hvsc hvout
    have hlook : dlookup (qualifiedName [] name) σv.outputs = some v := by
      rw [hvout]
      exact dlookup_append_self _ v _ habs
    have hdiff := diff_self_ok h v hne hnd
    obtain ⟨⟨h', out'⟩, hupd⟩ := updateTensors_self_ok h v hnd
    refine ⟨h', σv, out', ?_⟩
    simp [checkCall, hvph, hvsc, hlook, hdiff, hupd, bind_ok_eq]

theorem C5_collect_verify_roundtrip_witness :
    ∃ h' σ' out, checkCall rtHeap rtVerifyState "step" (fun _ => rtValue) false
        = .ok (h', σ', out, [(qualifiedName [] "step", (0, 0, 0))]) := by
  have hmain := C5_collect_verify_roundtrip rtHeap "step" rtValue rtCollectState
      rfl rfl rfl rfl rfl
  exact hmain.2 rtVerifyState rfl rfl rfl

/-- C6: on every exit path of a collect or a verify session — normal
completion, an exception raised by the caller's body, a failure of the
serialization in `collect`, or a failed/empty load in `verify` — the phase
ends up reset to `none` (Inactive). -/
theorem C6_phase_inactive_after_session (σ : CheckerState) (path : Option String)
    (body : CheckerState → CheckerState × Option String) (serFail : Bool)
    (load : Option (Except String Store)) :
    (collectSession σ path body serFail).1.phase = none ∧
    (verifySession σ load body).1.phase = none := by
  constructor
  · cases path with
    | none => rfl
    | some p => cases serFail <;> rfl
  · cases load with
    | none =>
      cases hE : σ.outputs.isEmpty <;>
        simp [verifySession, verifyFrom, hE]
    | some r =>
      cases r with
      | error e => rfl
      | ok st =>
        cases hE : st.isEmpty <;>
          simp [verifySession, verifyFrom, hE]

/-- C7: qualified names join the scope stack and the local name with `"."`:
a `check("b", ...)` issued inside `scope("a")` nested inside `scope("outer")`
records under the qualified name `"outer.a.b"`. -/
theorem C7_nested_scopes_qualified_name (h : Heap) (σ : CheckerState) (v : PyVal)
    (hsc : σ.scopes = []) (hph : σ.phase = some Phase.COLLECT)
    (habs : dlookup "outer.a.b" σ.outputs = none) :
    checkCall h (scopeEnter (scopeEnter σ "outer") "a") "b" (fun _ => v) false
      = .ok (h, { σ with scopes := ["outer", "a"],
                          outputs := σ.outputs ++ [("outer.a.b", v)] },
             v, []) := by
  obtain ⟨ph, sc, outs, nm⟩ := σ
  simp only at hsc hph habs
  subst hsc
  subst hph
  have hq : qualifiedName ["outer", "a"] "b" = "outer.a.b" := rfl
  simp [checkCall, scopeEnter, hq, habs]

theorem C7_nested_scopes_qualified_name_witness :
    checkCall [] (scopeEnter (scopeEnter rtCollectState "outer") "a") "b"
        (fun _ => PyVal.float 1) false
      = .ok ([], { rtCollectState with scopes := ["outer", "a"],
                                        outputs := [("outer.a.b", PyVal.float 1)] },
             PyVal.float 1, []) := by
  have hmain := C7_nested_scopes_qualified_name [] rtCollectState (PyVal.float 1)
      rfl rfl rfl
  exact hmain

/-- C8: a second `check` call under an already-present qualified name during a
Collecting session leaves the checker state — and hence the stored first
value — completely unchanged, and returns the freshly computed thunk value. -/
theorem C8_double_collect_no_overwrite (h : Heap) (σ : CheckerState)
    (name : String) (thunk : CheckerState → PyVal) (w : PyVal)
    (hph : σ.phase = some Phase.COLLECT)
    (hpresent : dlookup (qualifiedName σ.scopes name) σ.outputs = some w) :
    checkCall h σ name thunk false
      = .ok (h, σ, thunk (scopeEnter σ name), []) := by
  simp [checkCall, hph, hpresent]

theorem C8_double_collect_no_overwrite_witness :
    checkCall [] c8State "n" (fun _ => PyVal.float 3) false
      = .ok ([], c8State, PyVal.float 3, []) := by
  have hmain := C8_double_collect_no_overwrite [] c8State "n"
      (fun _ => PyVal.float 3) (PyVal.float 2) rfl rfl
  exact hmain

/-- C9: entering a verify session with an empty Recorded Output Store — no
load and nothing collected, or a loaded empty mapping — raises `ValueError`
(from `max()` over the store's keys) at session entry: the body never runs
and the phase is never set to Verifying (the `finally` block leaves it
Inactive). -/
theorem C9_verify_empty_store_raises (σ : CheckerState)
    (body : CheckerState → CheckerState × Option String)
    (hempty : σ.outputs = []) :
    (verifySession σ none body
        = ({ σ with phase := none },
           some "ValueError: max() arg is an empty sequence", false)) ∧
    ∀ σ' : CheckerState, verifySession σ' (some (.ok [])) body
        = ({ σ' with outputs := [], phase := none },
           some "ValueError: max() arg is an empty sequence", false) := by
  constructor
  · simp [verifySession, verifyFrom, hempty]
  · intro σ'
    simp [verifySession, verifyFrom]

theorem C9_verify_empty_store_raises_witness :
    verifySession initState none nbody
      = ({ initState with phase := none },
         some "ValueError: max() arg is an empty sequence", false) := by
  have hmain := C9_verify_empty_store_raises initState nbody rfl
  exact hmain.1

/-- C10: during a Verifying session, when the recorded leaf is a plain scalar
(neither array-like nor sequence nor mapping) and the live value has the same
type, `check` returns the recorded object itself, prints a `(0, 0, 0)` row,
and discards the live value without mutating anything (heap and state are
returned unchanged). -/
theorem C10_verify_scalar_leaf_returns_recorded (h : Heap) (σ : CheckerState)
    (name : String) (recorded live : PyVal)
    (hph : σ.phase = some Phase.VERIFY)
    (hrec : dlookup (qualifiedName σ.scopes name) σ.outputs = some recorded)
    (hscalar : scalarLeaf recorded = true)
    (hty : recorded.ty = live.ty) :
    checkCall h σ name (fun _ => live) false
      = .ok (h, σ, recorded, [(qualifiedName σ.scopes name, (0, 0, 0))]) := by
  cases recorded with
  | float q =>
    cases live with
    | float q' =>
      simp [checkCall, hph, hrec, diff, updateTensors, PyVal.ty, bind_ok_eq]
    | array r => simp [PyVal.ty] at hty
    | tensor r => simp [PyVal.ty] at hty
    | vlist xs => simp [PyVal.ty] at hty
    | vtuple xs => simp [PyVal.ty] at hty
    | vdict xs => simp [PyVal.ty] at hty
    | int z => simp [PyVal.ty] at hty
  | int z =>
    cases live with
    | int z' =>
      simp [checkCall, hph, hrec, diff, updateTensors, PyVal.ty, bind_ok_eq]
    | array r => simp [PyVal.ty] at hty
    | tensor r => simp [PyVal.ty] at hty
    | vlist xs => simp [PyVal.ty] at hty
    | vtuple xs => simp [PyVal.ty] at hty
    | vdict xs => simp [PyVal.ty] at hty
    | float q => simp [PyVal.ty] at hty
  | array r => simp [scalarLeaf] at hscalar
  | tensor r => simp [scalarLeaf] at hscalar
  | vlist xs => simp [scalarLeaf] at hscalar
  | vtuple xs => simp [scalarLeaf] at hscalar
  | vdict xs => simp [scalarLeaf] at hscalar

theorem C10_verify_scalar_leaf_returns_recorded_witness :
    checkCall [] c10State "v" (fun _ => PyVal.int 9) false
      = .ok ([], c10State, PyVal.int 7, [("v", (0, 0, 0))]) := by
  have hmain := C10_verify_scalar_leaf_returns_recorded [] c10State "v"
      (PyVal.int 7) (PyVal.int 9) rfl rfl rfl rfl
  exact hmain
